import Mathlib

/-!
Verification of the data-access facade of `fly_connectome_data_tutorial`
(`src/python/utils.py`): path resolution (`construct_path`), the cached
remote fetchers (`read_feather_gcs`, `read_parquet_gcs`), and the batch
skeleton reader (`batch_read_swc_from_gcs`).

The Python string operations used by the source (`startswith`, `replace`,
`split`, `endswith`, `', '.join`) are modelled on `List Char`. The external
object store (`gcsfs`) is modelled as an immutable association list of
objects plus a metadata function; the local filesystem as an association
list from path to byte content. The external table libraries (pyarrow
feather/parquet) are modelled by a concrete injective codec between tables
and byte lists, with a proven parse/serialize round trip. Every side effect
of a fetch (remote `info`, remote `open`, local file read/write, mkdir) is
recorded in an event trace so that claims about "no remote operation" are
statements about the trace.
-/

/-! ## Python string primitives -/

/-- Python `s.startswith(pre)`. -/
def pyStartsWith (s pre : String) : Bool :=
  pre.data.isPrefixOf s.data

/-- Fuel-driven worker for Python `str.replace`: scan left to right,
replace each non-overlapping occurrence of `pat` by `rep`. The fuel is
an upper bound on the number of scan steps (the string length), kept
explicit so that the function reduces structurally. -/
def replaceAux (pat rep : List Char) : Nat → List Char → List Char
  | _, [] => []
  | 0, l => l
  | fuel + 1, c :: rest =>
    if !pat.isEmpty && pat.isPrefixOf (c :: rest) then
      rep ++ replaceAux pat rep fuel ((c :: rest).drop pat.length)
    else
      c :: replaceAux pat rep fuel rest

/-- Python `s.replace(pat, rep)` (replaces every occurrence). -/
def pyReplace (s pat rep : String) : String :=
  ⟨replaceAux pat.data rep.data s.data.length s.data⟩

/-- Python `s.split(sep)[0]`: the characters before the first separator. -/
def pySplitFirst (s : String) (sep : Char) : String :=
  ⟨s.data.takeWhile (fun c => c ≠ sep)⟩

/-- Python `s.endswith(suf)`. -/
def pyEndsWith (s suf : String) : Bool :=
  suf.data.isSuffixOf s.data

/-- Python `os.path.join` for the cases this code exercises
(posix separator, relative second component). -/
def pathJoin (d f : String) : String :=
  if d = "" then f
  else if pyEndsWith d "/" then d ++ f
  else d ++ "/" ++ f

/-- Python `', '.join(keys)`. -/
def commaJoin : List String → String
  | [] => ""
  | [x] => x
  | x :: y :: rest => x ++ ", " ++ commaJoin (y :: rest)

/-- Worker for substring containment. -/
def containsAux (sub : List Char) : List Char → Bool
  | [] => sub.isEmpty
  | c :: rest => sub.isPrefixOf (c :: rest) || containsAux sub rest

/-- `strContains s sub` holds when `sub` occurs as a contiguous substring
of `s` (Python `sub in s`). -/
def strContains (s sub : String) : Bool :=
  containsAux sub.data s.data

/-! ## Tables and the serialization codec

A `Table` is an in-memory tabular value: a list of named columns.
The byte-level feather/parquet formats are external libraries; they are
modelled by one concrete injective codec (tagged per format so that the
two formats are distinct byte languages), with a proven round trip. -/

/-- An in-memory table with named columns (models a `pandas.DataFrame` /
`pyarrow` table as far as the facade observes it). -/
structure Table where
  cols : List (String × List Int)
deriving DecidableEq, Repr

/-- Column restriction: `pq.read_table(..., columns=cs)` /
`pd.read_parquet(..., columns=cs)` keep only the named columns. -/
def Table.select (t : Table) (cs : List String) : Table :=
  ⟨t.cols.filter (fun c => cs.contains c.1)⟩

/-- Apply an optional `columns=` restriction (`None` keeps everything). -/
def selectOpt (cs : Option (List String)) (t : Table) : Table :=
  match cs with
  | none => t
  | some cs => t.select cs

/-- On-disk formats used by the facade. -/
inductive Fmt where
  | feather
  | parquet
deriving DecidableEq, Repr

/-- Format tag byte. -/
def Fmt.tag : Fmt → Nat
  | .feather => 0
  | .parquet => 1

/-- Injective cell encoding of an integer as a natural. -/
def encInt (n : Int) : Nat :=
  if 0 ≤ n then 2 * n.toNat else 2 * n.natAbs - 1

/-- Inverse of `encInt`. -/
def decInt (k : Nat) : Int :=
  if k % 2 = 0 then ((k / 2 : Nat) : Int) else -(((k + 1) / 2 : Nat) : Int)

/-- Length-prefixed encoding of a string. -/
def encStr (s : String) : List Nat :=
  s.length :: s.data.map Char.toNat

/-- Decode a length-prefixed string, returning the remaining input. -/
def decStr : List Nat → Option (String × List Nat)
  | [] => none
  | n :: rest =>
    if n ≤ rest.length then
      some (⟨(rest.take n).map Char.ofNat⟩, rest.drop n)
    else none

/-- Length-prefixed encoding of an integer column body. -/
def encIntList (l : List Int) : List Nat :=
  l.length :: l.map encInt

/-- Decode a length-prefixed integer list, returning the remaining input. -/
def decIntList : List Nat → Option (List Int × List Nat)
  | [] => none
  | n :: rest =>
    if n ≤ rest.length then
      some ((rest.take n).map decInt, rest.drop n)
    else none

/-- Encoding of one named column. -/
def encCol (c : String × List Int) : List Nat :=
  encStr c.1 ++ encIntList c.2

/-- Decode one named column, returning the remaining input. -/
def decCol (b : List Nat) : Option ((String × List Int) × List Nat) :=
  match decStr b with
  | none => none
  | some (s, r) =>
    match decIntList r with
    | none => none
    | some (l, r2) => some ((s, l), r2)

/-- Decode a counted sequence of columns. -/
def decCols : Nat → List Nat → Option (List (String × List Int) × List Nat)
  | 0, b => some ([], b)
  | n + 1, b =>
    match decCol b with
    | none => none
    | some (c, r) =>
      match decCols n r with
      | none => none
      | some (cs, r2) => some (c :: cs, r2)

/-- Serialize a table in the given on-disk format (models
`df.to_feather` / `df.to_parquet` writing bytes). -/
def encodeTable (f : Fmt) (t : Table) : List Nat :=
  f.tag :: t.cols.length :: (t.cols.map encCol).flatten

/-- Parse a byte buffer as a table of the given on-disk format (models
`feather.read_feather` / `pq.read_table`); `none` is a parse failure. -/
def decodeTable (f : Fmt) : List Nat → Option Table
  | tag :: n :: rest =>
    if tag = f.tag then
      match decCols n rest with
      | some (cs, []) => some ⟨cs⟩
      | _ => none
    else none
  | _ => none

/-! ## Filesystem, object store, effects -/

/-- Byte content of a file or remote object. -/
abbrev Bytes := List Nat

/-- Association-list lookup keyed by strings (used for the local
filesystem, the remote object store, and the extensions table). -/
def alookup {β : Type} (k : String) : List (String × β) → Option β
  | [] => none
  | (a, b) :: rest => if k = a then some b else alookup k rest

/-- The local filesystem: an association list from path to byte content.
Writes prepend, so `alookup` sees the latest write. -/
abbrev FileSys := List (String × Bytes)

/-- Overwrite/create the file at `p`. -/
def fsWrite (fs : FileSys) (p : String) (b : Bytes) : FileSys :=
  (p, b) :: fs

/-- The external `gcsfs.GCSFileSystem` client: an immutable map of objects,
plus the metadata query. `info p = none` models `gcs_fs.info(p)` raising;
`info p = some n` models a successful call whose reported size, after the
source's `file_info.get('size', 0)` default, is `n`. -/
structure GcsFs where
  objects : List (String × Bytes)
  info : String → Option Nat

/-- Observable side effects of one fetch, in order of occurrence. -/
inductive Event where
  | remoteInfo (path : String)
  | remoteOpen (path : String)
  | fileRead (path : String)
  | fileWrite (path : String)
  | mkdir (dir : String)
deriving DecidableEq, Repr

/-- Error taxonomy of the facade. -/
inductive Err where
  | preconditionFailed
  | ioFailure
  | parseFailure
deriving DecidableEq, Repr

/-- Parse bytes in format `f` and apply an optional column restriction
(models `pq.read_table(data, columns=cols)` and `feather.read_feather`). -/
def parseSel (f : Fmt) (b : Bytes) (cols : Option (List String)) : Except Err Table :=
  match decodeTable f b with
  | none => .error .parseFailure
  | some t => .ok (selectOpt cols t)

/-- Read and parse a local file (models `pd.read_feather(path)` /
`pd.read_parquet(path, columns=cols)`): missing file is an I/O error,
undecodable content a parse error. -/
def readLocalTable (f : Fmt) (fs : FileSys) (p : String) (cols : Option (List String)) :
    Except Err Table :=
  match alookup p fs with
  | none => .error .ioFailure
  | some b => parseSel f b cols

/-! ## The chunked download loop -/

/-- The 1 MiB chunk size of the download loops. -/
def CHUNK : Nat := 1024 * 1024

/-- Fuel-driven model of the download loop
`while True: chunk = f.read(chunk_size); if not chunk: break; chunks.append(chunk)`:
each step takes the next `n` bytes of the remaining stream. The fuel is an
upper bound on the number of iterations (the stream length suffices since
each non-final read consumes at least one byte). -/
def chunksOfAux (n : Nat) : Nat → Bytes → List Bytes
  | _, [] => []
  | 0, _ => []
  | fuel + 1, b =>
    if n = 0 then []
    else b.take n :: chunksOfAux n fuel (b.drop n)

/-- All chunks read from a stream with content `b`. -/
def chunksOf (n : Nat) (b : Bytes) : List Bytes :=
  chunksOfAux n b.length b

/-- `b''.join(chunks)` after the download loop of the source. -/
def downloadChunked (content : Bytes) : Bytes :=
  (chunksOf CHUNK content).flatten

/-! ## Path resolution (`construct_path`, utils.py lines 116-172) -/

/-- The `extensions` table of `construct_path` (insertion order matters for
the error message, as Python dicts preserve it). -/
def extensionsTable : List (String × String) :=
  [("meta", ".feather"), ("edgelist", ".feather"), ("edgelist_simple", ".feather"),
   ("synapses", ".parquet"), ("skeletons", "")]

/-- `construct_path(data_root, dataset, file_type, space_suffix)`:
pure path resolution. The `ValueError` raised on an unknown `file_type`
is modelled as `.error` carrying the exact message. -/
def construct_path (data_root dataset : String) (file_type : String)
    (space_suffix : Option String) : Except String String :=
  let dataset_name := pySplitFirst dataset '_'
  match alookup file_type extensionsTable with
  | none =>
    .error ("Unknown file_type: " ++ file_type ++ ". Choose: "
      ++ commaJoin (extensionsTable.map Prod.fst))
  | some extension =>
    let filename :=
      if file_type = "skeletons" then
        let ss :=
          match space_suffix with
          | none => dataset_name ++ "_space"
          | some s => s
        if dataset_name = "banc" then
          dataset_name ++ "_" ++ ss ++ "_l2_swc" ++ extension
        else
          dataset_name ++ "_" ++ ss ++ "_swc" ++ extension
      else if file_type = "edgelist_simple" then
        dataset ++ "_simple_edgelist" ++ extension
      else
        dataset ++ "_" ++ file_type ++ extension
    .ok (data_root ++ "/" ++ dataset_name ++ "/" ++ filename)

/-- The dataset family: leading token of the dataset name (spec §4.1). -/
def specFamily (dataset : String) : String :=
  pySplitFirst dataset '_'

/-- Modelled from the spec: the filename mapping table of spec §6 together
with the skeletons special cases of §4.1 (default space suffix
`<family>_space`, extra `_l2` segment for the family `banc`), written
directly from the spec's words for comparison with `construct_path`.
Returns `none` outside the five recognized kinds. -/
def specFilename (dataset ft : String) (ss : Option String) : Option String :=
  if ft = "meta" then some (dataset ++ "_meta" ++ ".feather")
  else if ft = "edgelist" then some (dataset ++ "_edgelist" ++ ".feather")
  else if ft = "edgelist_simple" then some (dataset ++ "_simple_edgelist" ++ ".feather")
  else if ft = "synapses" then some (dataset ++ "_synapses" ++ ".parquet")
  else if ft = "skeletons" then
    let fam := specFamily dataset
    let s := ss.getD (fam ++ "_space")
    some (fam ++ "_" ++ s ++ (if fam = "banc" then "_l2" else "") ++ "_swc")
  else none

/-- The cache-miss parse step shared by both fetchers: with a known
non-zero size the source takes the chunked progress path and parses the
concatenated chunks; with a zero/absent size (`file_size` falsy in Python)
it parses the stream directly. -/
def chooseParse (f : Fmt) (file_size : Option Nat) (content : Bytes)
    (cols : Option (List String)) : Except Err Table :=
  match file_size with
  | some sz =>
    if sz ≠ 0 then parseSel f (downloadChunked content) cols
    else parseSel f content cols
  | none => parseSel f content cols

/-! ## Cached remote fetchers (utils.py lines 175-366)

Each fetcher returns the result (or the raised error), the final local
filesystem, and the ordered trace of side effects. -/

/-- `read_feather_gcs(path, gcs_fs, cache_dir, use_cache)` over a local
filesystem `fs`. Mirrors the source line by line: remote branch requires a
client; cache filename is `path.replace("gs://", "").replace("/", "_")`;
a cache hit parses the local copy; a miss queries `info` (best-effort),
opens the object, takes the chunked path exactly when a non-zero size was
reported, parses, and (if `use_cache`) writes the parsed table back. -/
def read_feather_gcs (path : String) (gcs_fs : Option GcsFs) (cache_dir : String)
    (use_cache : Bool) (fs : FileSys) : Except Err Table × FileSys × List Event :=
  if pyStartsWith path "gs://" = true then
    match gcs_fs with
    | none => (.error .preconditionFailed, fs, [])
    | some client =>
      let cache_filename := pyReplace (pyReplace path "gs://" "") "/" "_"
      let cache_path := pathJoin cache_dir cache_filename
      if use_cache && (alookup cache_path fs).isSome then
        (readLocalTable .feather fs cache_path none, fs, [.fileRead cache_path])
      else
        let gcs_path := pyReplace path "gs://" ""
        let file_size := client.info gcs_path
        match alookup gcs_path client.objects with
        | none => (.error .ioFailure, fs, [.remoteInfo gcs_path, .remoteOpen gcs_path])
        | some content =>
          let parsed := chooseParse .feather file_size content none
          match parsed with
          | .error e => (.error e, fs, [.remoteInfo gcs_path, .remoteOpen gcs_path])
          | .ok df =>
            if use_cache then
              (.ok df, fsWrite fs cache_path (encodeTable .feather df),
               [.remoteInfo gcs_path, .remoteOpen gcs_path, .mkdir cache_dir,
                .fileWrite cache_path])
            else
              (.ok df, fs, [.remoteInfo gcs_path, .remoteOpen gcs_path])
  else
    (readLocalTable .feather fs path none, fs, [.fileRead path])

/-- `read_parquet_gcs(path, gcs_fs, columns, cache_dir, use_cache)` over a
local filesystem `fs`. Same structure as `read_feather_gcs`, plus the
`columns` restriction and the cache-write special case: when `columns` was
restricted, the source re-reads the full object and caches the entire
table, while still returning the restricted one. -/
def read_parquet_gcs (path : String) (gcs_fs : Option GcsFs)
    (columns : Option (List String)) (cache_dir : String) (use_cache : Bool)
    (fs : FileSys) : Except Err Table × FileSys × List Event :=
  if pyStartsWith path "gs://" = true then
    match gcs_fs with
    | none => (.error .preconditionFailed, fs, [])
    | some client =>
      let cache_filename := pyReplace (pyReplace path "gs://" "") "/" "_"
      let cache_path := pathJoin cache_dir cache_filename
      if use_cache && (alookup cache_path fs).isSome then
        (readLocalTable .parquet fs cache_path columns, fs, [.fileRead cache_path])
      else
        let gcs_path := pyReplace path "gs://" ""
        let file_size := client.info gcs_path
        match alookup gcs_path client.objects with
        | none => (.error .ioFailure, fs, [.remoteInfo gcs_path, .remoteOpen gcs_path])
        | some content =>
          let parsed := chooseParse .parquet file_size content columns
          match parsed with
          | .error e => (.error e, fs, [.remoteInfo gcs_path, .remoteOpen gcs_path])
          | .ok df =>
            if use_cache then
              match columns with
              | some _ =>
                match decodeTable .parquet content with
                | none =>
                  (.error .parseFailure, fs,
                   [.remoteInfo gcs_path, .remoteOpen gcs_path, .mkdir cache_dir,
                    .remoteOpen gcs_path])
                | some full_df =>
                  (.ok df, fsWrite fs cache_path (encodeTable .parquet full_df),
                   [.remoteInfo gcs_path, .remoteOpen gcs_path, .mkdir cache_dir,
                    .remoteOpen gcs_path, .fileWrite cache_path])
              | none =>
                (.ok df, fsWrite fs cache_path (encodeTable .parquet df),
                 [.remoteInfo gcs_path, .remoteOpen gcs_path, .mkdir cache_dir,
                  .fileWrite cache_path])
            else
              (.ok df, fs, [.remoteInfo gcs_path, .remoteOpen gcs_path])
  else
    (readLocalTable .parquet fs path columns, fs, [.fileRead path])

/-! ## SWC readers (utils.py lines 369-428)

`navis.read_swc` is an external parser; it is passed in as a function from
bytes to either a parsed neuron or a raised error, so the loop logic is
the only thing under verification. -/

/-- `read_swc_from_gcs(gcs_fs, swc_path)`: fetch the whole object and hand
the bytes to the external parser. A missing object is a raised I/O error. -/
def read_swc_from_gcs {ν : Type} (navis_read_swc : Bytes → Except Err ν)
    (gcs_fs : GcsFs) (swc_path : String) : Except Err ν :=
  match alookup swc_path gcs_fs.objects with
  | none => .error .ioFailure
  | some content => navis_read_swc content

/-- `batch_read_swc_from_gcs(gcs_fs, directory, filenames)`: sequential
fetch of each name under `directory`; a per-item failure is logged and
skipped (`except ... continue`), successes are accumulated in order. -/
def batch_read_swc_from_gcs {ν : Type} (navis_read_swc : Bytes → Except Err ν)
    (gcs_fs : GcsFs) (directory : String) (filenames : List String) : List ν :=
  filenames.foldl
    (fun neurons filename =>
      match read_swc_from_gcs navis_read_swc gcs_fs (directory ++ "/" ++ filename) with
      | .ok neuron => neurons ++ [neuron]
      | .error _ => neurons)
    []

/-! ## String append helpers -/

/-! ## Codec round-trip and download-loop lemmas -/

theorem decInt_encInt (n : Int) : decInt (encInt n) = n := by
  unfold encInt decInt
  split <;> split <;> omega

theorem map_ofNat_toNat (l : List Char) : l.map (Char.ofNat ∘ Char.toNat) = l := by
  induction l with
  | nil => rfl
  | cons a l ih =>
    simp only [List.map_cons, Function.comp_apply, Char.ofNat_toNat, ih]

theorem map_decInt_encInt (l : List Int) : l.map (decInt ∘ encInt) = l := by
  induction l with
  | nil => rfl
  | cons a l ih =>
    simp only [List.map_cons, Function.comp_apply, decInt_encInt, ih]

theorem decStr_encStr (s : String) (r : List Nat) :
    decStr (encStr s ++ r) = some (s, r) := by
  have hlen : (s.data.map Char.toNat).length = s.length := by
    rw [List.length_map]; rfl
  simp only [encStr, decStr, List.cons_append]
  rw [if_pos (by rw [List.length_append, hlen]; omega)]
  rw [show s.length = (s.data.map Char.toNat).length from hlen.symm]
  rw [List.take_left, List.drop_left, List.map_map, map_ofNat_toNat]

theorem decIntList_encIntList (l : List Int) (r : List Nat) :
    decIntList (encIntList l ++ r) = some (l, r) := by
  have hlen : (l.map encInt).length = l.length := by simp
  simp only [encIntList, decIntList, List.cons_append]
  rw [if_pos (by rw [List.length_append, hlen]; omega)]
  rw [show l.length = (l.map encInt).length from hlen.symm]
  rw [List.take_left, List.drop_left, List.map_map, map_decInt_encInt]

theorem decCol_encCol (c : String × List Int) (r : List Nat) :
    decCol (encCol c ++ r) = some (c, r) := by
  simp only [encCol, decCol, List.append_assoc, decStr_encStr, decIntList_encIntList]

theorem decCols_encCols (cs : List (String × List Int)) (r : List Nat) :
    decCols cs.length ((cs.map encCol).flatten ++ r) = some (cs, r) := by
  induction cs generalizing r with
  | nil => simp [decCols]
  | cons c rest ih =>
    simp only [List.map_cons, List.flatten_cons, List.length_cons, decCols,
      List.append_assoc, decCol_encCol]
    rw [ih]

theorem decodeTable_encodeTable (f : Fmt) (t : Table) :
    decodeTable f (encodeTable f t) = some t := by
  have h := decCols_encCols t.cols []
  simp only [List.append_nil] at h
  simp [encodeTable, decodeTable, h]

theorem chunksOfAux_flatten (n : Nat) (hn : n ≠ 0) :
    ∀ (fuel : Nat) (b : Bytes), b.length ≤ fuel → (chunksOfAux n fuel b).flatten = b := by
  intro fuel
  induction fuel with
  | zero =>
    intro b hb
    cases b with
    | nil => rfl
    | cons c rest => simp at hb
  | succ fuel ih =>
    intro b hb
    cases b with
    | nil => rfl
    | cons c rest =>
      simp only [chunksOfAux, if_neg hn, List.flatten_cons]
      rw [ih ((c :: rest).drop n)
        (by simp only [List.length_drop, List.length_cons] at hb ⊢; omega)]
      exact List.take_append_drop n (c :: rest)

/-- The chunked loop accumulates exactly the stream's content. -/
theorem downloadChunked_eq (content : Bytes) : downloadChunked content = content := by
  have h : (CHUNK : Nat) ≠ 0 := by decide
  exact chunksOfAux_flatten CHUNK h content.length content (le_refl _)

theorem strAppend_assoc (a b c : String) : a ++ b ++ c = a ++ (b ++ c) :=
  String.ext (List.append_assoc a.data b.data c.data)

theorem strAppend_empty (a : String) : a ++ "" = a :=
  String.ext (List.append_nil a.data)

theorem sdata_append (a b : String) : (a ++ b).data = a.data ++ b.data := rfl

/-- The skeletons filename produced by `construct_path` equals the spec's
`{family}_{spaceSuffix}[_l2]_swc` pattern (the `[_l2]` segment is present
exactly for the family `banc`). -/
theorem skel_filename_eq (ds ssv : String) :
    (if pySplitFirst ds '_' = "banc"
      then pySplitFirst ds '_' ++ "_" ++ ssv ++ "_l2_swc" ++ ""
      else pySplitFirst ds '_' ++ "_" ++ ssv ++ "_swc" ++ "")
    = pySplitFirst ds '_' ++ "_" ++ ssv
        ++ (if pySplitFirst ds '_' = "banc" then "_l2" else "") ++ "_swc" := by
  by_cases hb : pySplitFirst ds '_' = "banc"
  · simp only [if_pos hb]
    rw [strAppend_empty, strAppend_assoc (pySplitFirst ds '_' ++ "_" ++ ssv) "_l2" "_swc"]
    exact rfl
  · simp only [if_neg hb]
    simp only [strAppend_empty]

/-! ## Claim theorems: path resolution -/

/-- Claim C3: for every valid `(root, dataset, fileKind)` (the five
recognized kinds, for which `specFilename` returns `some`), `construct_path`
is pure and deterministic and returns exactly
`root ++ "/" ++ family ++ "/" ++ filename`, where the family is the segment
of the dataset name before the first underscore and the filename follows
the spec's fixed fileKind-to-suffix/extension table (`specFilename`,
written from the spec's words). Determinism is the first conjunct;
in this functional embedding it is definitional. -/
theorem construct_path_spec_table (root dataset ft : String) (ss : Option String)
    (hft : ft ∈ ["meta", "edgelist", "edgelist_simple", "synapses", "skeletons"]) :
    construct_path root dataset ft ss = construct_path root dataset ft ss
    ∧ ∃ fn, specFilename dataset ft ss = some fn
        ∧ construct_path root dataset ft ss
            = .ok (root ++ "/" ++ specFamily dataset ++ "/" ++ fn) := by
  refine ⟨rfl, ?_⟩
  simp only [List.mem_cons, List.not_mem_nil, or_false] at hft
  rcases hft with h | h | h | h | h
  · subst h
    refine ⟨dataset ++ "_meta" ++ ".feather", rfl, ?_⟩
    show Except.ok (root ++ "/" ++ pySplitFirst dataset '_' ++ "/"
        ++ (dataset ++ "_" ++ "meta" ++ ".feather"))
      = Except.ok (root ++ "/" ++ specFamily dataset ++ "/"
        ++ (dataset ++ "_meta" ++ ".feather"))
    rw [strAppend_assoc dataset "_" "meta"]
    exact rfl
  · subst h
    refine ⟨dataset ++ "_edgelist" ++ ".feather", rfl, ?_⟩
    show Except.ok (root ++ "/" ++ pySplitFirst dataset '_' ++ "/"
        ++ (dataset ++ "_" ++ "edgelist" ++ ".feather"))
      = Except.ok (root ++ "/" ++ specFamily dataset ++ "/"
        ++ (dataset ++ "_edgelist" ++ ".feather"))
    rw [strAppend_assoc dataset "_" "edgelist"]
    exact rfl
  · subst h
    exact ⟨dataset ++ "_simple_edgelist" ++ ".feather", rfl, rfl⟩
  · subst h
    refine ⟨dataset ++ "_synapses" ++ ".parquet", rfl, ?_⟩
    show Except.ok (root ++ "/" ++ pySplitFirst dataset '_' ++ "/"
        ++ (dataset ++ "_" ++ "synapses" ++ ".parquet"))
      = Except.ok (root ++ "/" ++ specFamily dataset ++ "/"
        ++ (dataset ++ "_synapses" ++ ".parquet"))
    rw [strAppend_assoc dataset "_" "synapses"]
    exact rfl
  · subst h
    rcases ss with _ | s
    · refine ⟨pySplitFirst dataset '_' ++ "_" ++ (pySplitFirst dataset '_' ++ "_space")
          ++ (if pySplitFirst dataset '_' = "banc" then "_l2" else "") ++ "_swc",
        rfl, ?_⟩
      show Except.ok (root ++ "/" ++ pySplitFirst dataset '_' ++ "/"
          ++ (if pySplitFirst dataset '_' = "banc"
              then pySplitFirst dataset '_' ++ "_"
                ++ (pySplitFirst dataset '_' ++ "_space") ++ "_l2_swc" ++ ""
              else pySplitFirst dataset '_' ++ "_"
                ++ (pySplitFirst dataset '_' ++ "_space") ++ "_swc" ++ "")) = _
      rw [skel_filename_eq]
      exact rfl
    · refine ⟨pySplitFirst dataset '_' ++ "_" ++ s
          ++ (if pySplitFirst dataset '_' = "banc" then "_l2" else "") ++ "_swc",
        rfl, ?_⟩
      show Except.ok (root ++ "/" ++ pySplitFirst dataset '_' ++ "/"
          ++ (if pySplitFirst dataset '_' = "banc"
              then pySplitFirst dataset '_' ++ "_" ++ s ++ "_l2_swc" ++ ""
              else pySplitFirst dataset '_' ++ "_" ++ s ++ "_swc" ++ "")) = _
      rw [skel_filename_eq]
      exact rfl

/-- Witness for C3 at the source's own docstring example
(`construct_path("gs://bucket/data", "banc_746", "meta")`). -/
theorem construct_path_spec_table_witness :
    ("meta" : String) ∈ ["meta", "edgelist", "edgelist_simple", "synapses", "skeletons"]
    ∧ (construct_path "gs://bucket/data" "banc_746" "meta" none
        = construct_path "gs://bucket/data" "banc_746" "meta" none
      ∧ ∃ fn, specFilename "banc_746" "meta" none = some fn
          ∧ construct_path "gs://bucket/data" "banc_746" "meta" none
              = .ok ("gs://bucket/data" ++ "/" ++ specFamily "banc_746" ++ "/" ++ fn)) :=
  ⟨by decide, construct_path_spec_table "gs://bucket/data" "banc_746" "meta" none (by decide)⟩

/-- Counterexample to claim C4: the dataset `"l2_9"` has family `"l2"`,
which is not `"banc"`, yet its resolved skeletons path does contain the
substring `"_l2"` (the family itself contributes it), so "for every dataset
whose family is not 'banc', the resolved skeletons path does not contain
'_l2'" is false as stated. -/
theorem construct_path_l2_claim_false :
    specFamily "l2_9" ≠ "banc"
    ∧ construct_path "root" "l2_9" "skeletons" none = .ok "root/l2/l2_l2_space_swc"
    ∧ strContains "root/l2/l2_l2_space_swc" "_l2" = true :=
  ⟨by decide, rfl, by decide⟩

/-- Claim C4 (amended): `construct_path(root, "banc_746", skeletons)` with
the default space suffix always resolves to
`root/banc/banc_banc_space_l2_swc`, whose filename contains the literal
segment `_l2_swc`; for every dataset whose family is not `banc`, the extra
`_l2` segment is NOT inserted — the filename is exactly
`family_familySpace_swc` — so the path contains `_l2` only when the root or
the family itself contributes it (it does not for `"otherfam_1"` under an
`_l2`-free root). -/
theorem construct_path_l2_amended (root root2 dataset : String)
    (hfam : pySplitFirst dataset '_' ≠ "banc") :
    construct_path root2 "banc_746" "skeletons" none
      = .ok (root2 ++ "/" ++ "banc" ++ "/" ++ "banc_banc_space_l2_swc")
    ∧ strContains "banc_banc_space_l2_swc" "_l2_swc" = true
    ∧ construct_path root dataset "skeletons" none
      = .ok (root ++ "/" ++ pySplitFirst dataset '_' ++ "/"
          ++ (pySplitFirst dataset '_' ++ "_" ++ (pySplitFirst dataset '_' ++ "_space")
              ++ "_swc"))
    ∧ strContains "r/otherfam/otherfam_otherfam_space_swc" "_l2" = false := by
  refine ⟨rfl, by decide, ?_, by decide⟩
  show Except.ok (root ++ "/" ++ pySplitFirst dataset '_' ++ "/"
      ++ (if pySplitFirst dataset '_' = "banc"
          then pySplitFirst dataset '_' ++ "_"
            ++ (pySplitFirst dataset '_' ++ "_space") ++ "_l2_swc" ++ ""
          else pySplitFirst dataset '_' ++ "_"
            ++ (pySplitFirst dataset '_' ++ "_space") ++ "_swc" ++ "")) = _
  rw [if_neg hfam, strAppend_empty]

/-- Witness for the amended C4 at dataset `"otherfam_1"`. -/
theorem construct_path_l2_amended_witness :
    pySplitFirst "otherfam_1" '_' ≠ "banc"
    ∧ construct_path "r" "otherfam_1" "skeletons" none
        = .ok ("r" ++ "/" ++ pySplitFirst "otherfam_1" '_' ++ "/"
            ++ (pySplitFirst "otherfam_1" '_' ++ "_"
                ++ (pySplitFirst "otherfam_1" '_' ++ "_space") ++ "_swc")) :=
  ⟨by decide, (construct_path_l2_amended "r" "x" "otherfam_1" (by decide)).2.2.1⟩

/-- Claim C5: for every root, dataset and space suffix, resolution with
fileKind `edgelist_simple` yields the filename
`{dataset}_simple_edgelist.feather` — the word `simple` before `edgelist` —
and that filename is never `{dataset}_edgelist_simple.feather`. -/
theorem construct_path_simple_edgelist (root dataset : String) (ss : Option String) :
    construct_path root dataset "edgelist_simple" ss
      = .ok (root ++ "/" ++ pySplitFirst dataset '_' ++ "/"
          ++ (dataset ++ "_simple_edgelist" ++ ".feather"))
    ∧ dataset ++ "_simple_edgelist" ++ ".feather"
        ≠ dataset ++ "_edgelist_simple" ++ ".feather" := by
  refine ⟨rfl, ?_⟩
  intro h
  have h2 := congrArg String.data h
  simp only [sdata_append, List.append_assoc] at h2
  have h3 := List.append_cancel_left h2
  exact absurd h3 (by decide)

/-- Claim C6: for every fileKind outside the five recognized kinds,
`construct_path` fails with the invalid-argument error whose message
enumerates all five valid kinds (the enumeration is made explicit by the
second conjunct: each kind name occurs in the message's `Choose:` list);
for each of the five recognized kinds it never fails. -/
theorem construct_path_unknown_kind (root dataset ft : String) (ss : Option String)
    (hft : ft ∉ ["meta", "edgelist", "edgelist_simple", "synapses", "skeletons"]) :
    construct_path root dataset ft ss
      = .error ("Unknown file_type: " ++ ft ++ ". Choose: "
          ++ "meta, edgelist, edgelist_simple, synapses, skeletons")
    ∧ (∀ k ∈ ["meta", "edgelist", "edgelist_simple", "synapses", "skeletons"],
        strContains "meta, edgelist, edgelist_simple, synapses, skeletons" k = true)
    ∧ (∀ k ∈ ["meta", "edgelist", "edgelist_simple", "synapses", "skeletons"],
        ∃ p, construct_path root dataset k ss = .ok p) := by
  simp only [List.mem_cons, List.not_mem_nil, or_false, not_or] at hft
  obtain ⟨h1, h2, h3, h4, h5⟩ := hft
  refine ⟨?_, by decide, ?_⟩
  · have hlk : alookup ft extensionsTable = none := by
      simp only [extensionsTable, alookup, if_neg h1, if_neg h2, if_neg h3, if_neg h4,
        if_neg h5]
    simp only [construct_path]
    rw [hlk]
    exact rfl
  · intro k hk
    simp only [List.mem_cons, List.not_mem_nil, or_false] at hk
    rcases hk with h | h | h | h | h
    · exact h ▸ ⟨_, rfl⟩
    · exact h ▸ ⟨_, rfl⟩
    · exact h ▸ ⟨_, rfl⟩
    · exact h ▸ ⟨_, rfl⟩
    · exact h ▸ ⟨_, rfl⟩

/-- Witness for C6 at the unknown kind `"bogus"`. -/
theorem construct_path_unknown_kind_witness :
    ("bogus" : String) ∉ ["meta", "edgelist", "edgelist_simple", "synapses", "skeletons"]
    ∧ construct_path "r" "d_1" "bogus" none
        = .error "Unknown file_type: bogus. Choose: meta, edgelist, edgelist_simple, synapses, skeletons" :=
  ⟨by decide, (construct_path_unknown_kind "r" "d_1" "bogus" none (by decide)).1⟩

/-! ## Fetch helper lemmas -/

theorem alookup_fsWrite {fs : FileSys} (p : String) (b : Bytes) :
    alookup p (fsWrite fs p b) = some b := by
  simp [fsWrite, alookup]

/-- Whatever the metadata size reported, the cache-miss parse step parses
exactly the full object content (the chunked progress path concatenates to
the same bytes as the direct read). -/
theorem chooseParse_eq (f : Fmt) (fsz : Option Nat) (content : Bytes)
    (cols : Option (List String)) :
    chooseParse f fsz content cols = parseSel f content cols := by
  rcases fsz with _ | sz
  · rfl
  · by_cases h : sz = 0 <;> simp [chooseParse, h, downloadChunked_eq]

/-! ## Claim theorems: cached remote fetch -/

/-- Counterexample to claim C1 as stated: on the degenerate remote path
`"gs://a/gs://b"` (which carries the remote scheme prefix), the claim's
cache key — strip the leading `gs://`, then `/` to `_` — is `"a_gs:__b"`,
and a parseable file exists at `.cache/a_gs:__b` with `useCache = true`;
yet the fetch is not served from that file: the source's
`path.replace("gs://", "")` removes every occurrence of the scheme, derives
the different key `"a_b"`, misses the cache, and performs remote info/open
operations (failing, since the stub store is empty), contradicting the
claimed no-remote-operation cache-hit return. -/
theorem read_gcs_cacheKey_claim_false :
    pyStartsWith "gs://a/gs://b" "gs://" = true
    ∧ pyReplace "a/gs://b" "/" "_" = "a_gs:__b"
    ∧ alookup (pathJoin ".cache" "a_gs:__b")
        [(".cache/a_gs:__b", encodeTable Fmt.feather ⟨[("x", [1])]⟩)]
        = some (encodeTable Fmt.feather ⟨[("x", [1])]⟩)
    ∧ parseSel Fmt.feather (encodeTable Fmt.feather ⟨[("x", [1])]⟩) none
        = .ok ⟨[("x", [1])]⟩
    ∧ pyReplace (pyReplace "gs://a/gs://b" "gs://" "") "/" "_" = "a_b"
    ∧ read_feather_gcs "gs://a/gs://b" (some ⟨[], fun _ => none⟩) ".cache" true
        [(".cache/a_gs:__b", encodeTable Fmt.feather ⟨[("x", [1])]⟩)]
        = (.error .ioFailure,
           [(".cache/a_gs:__b", encodeTable Fmt.feather ⟨[("x", [1])]⟩)],
           [.remoteInfo "a/b", .remoteOpen "a/b"]) :=
  ⟨by decide, by decide, by decide, rfl, by decide, rfl⟩

/-- Claim C1 (amended): for every path with the remote scheme prefix and
`useCache = true`, with the cache key obtained by removing every occurrence
of the scheme prefix from the path (which coincides with stripping the
leading prefix whenever the scheme occurs only at the start) and replacing
every `/` with `_`: if a file already exists at `cacheDir` joined with that
key, both fetchers return the table parsed from that local cache file
(`read_parquet_gcs` applying its `columns` restriction to it), leave the
filesystem unchanged, and perform no remote operation — the whole event
trace is the single local read of the cache file. -/
theorem read_gcs_cache_hit (path cd : String) (c : GcsFs) (cols : Option (List String))
    (fs : FileSys) (b : Bytes)
    (hp : pyStartsWith path "gs://" = true)
    (hc : alookup (pathJoin cd (pyReplace (pyReplace path "gs://" "") "/" "_")) fs
        = some b) :
    read_feather_gcs path (some c) cd true fs
      = (parseSel .feather b none, fs,
         [.fileRead (pathJoin cd (pyReplace (pyReplace path "gs://" "") "/" "_"))])
    ∧ read_parquet_gcs path (some c) cols cd true fs
      = (parseSel .parquet b cols, fs,
         [.fileRead (pathJoin cd (pyReplace (pyReplace path "gs://" "") "/" "_"))]) := by
  constructor
  · simp [read_feather_gcs, hp, hc, readLocalTable]
  · simp [read_parquet_gcs, hp, hc, readLocalTable]

/-- Witness for the amended C1: a concrete cache hit. -/
theorem read_gcs_cache_hit_witness :
    pyStartsWith "gs://bucket/meta.feather" "gs://" = true
    ∧ alookup
        (pathJoin ".cache"
          (pyReplace (pyReplace "gs://bucket/meta.feather" "gs://" "") "/" "_"))
        [(".cache/bucket_meta.feather", encodeTable Fmt.feather ⟨[("x", [1])]⟩)]
        = some (encodeTable Fmt.feather ⟨[("x", [1])]⟩)
    ∧ read_feather_gcs "gs://bucket/meta.feather" (some ⟨[], fun _ => none⟩) ".cache" true
        [(".cache/bucket_meta.feather", encodeTable Fmt.feather ⟨[("x", [1])]⟩)]
      = (parseSel .feather (encodeTable Fmt.feather ⟨[("x", [1])]⟩) none,
         [(".cache/bucket_meta.feather", encodeTable Fmt.feather ⟨[("x", [1])]⟩)],
         [.fileRead
           (pathJoin ".cache"
             (pyReplace (pyReplace "gs://bucket/meta.feather" "gs://" "") "/" "_"))]) :=
  ⟨by decide, by decide,
   (read_gcs_cache_hit "gs://bucket/meta.feather" ".cache" ⟨[], fun _ => none⟩ none
      [(".cache/bucket_meta.feather", encodeTable Fmt.feather ⟨[("x", [1])]⟩)]
      (encodeTable Fmt.feather ⟨[("x", [1])]⟩) (by decide) (by decide)).1⟩

/-- Claim C2: a remote parquet fetch with `useCache = true` and a non-null
`columns` restriction, on a cache miss over an object that parses to
`fullT`, returns only the requested columns while writing the ENTIRE table
to the cache file (the trace shows the one extra remote open used to
re-read the full object); afterwards, a fetch of the same path requesting
any column subset (with any client) is served from that cache file —
returning exactly those columns of the full table — with no remote
operation in its trace. -/
theorem read_parquet_columns_cache_full (path cd g cp : String) (c c2 : GcsFs)
    (cs : List String) (fs : FileSys) (content : Bytes) (fullT : Table)
    (hp : pyStartsWith path "gs://" = true)
    (hg : g = pyReplace path "gs://" "")
    (hcp : cp = pathJoin cd (pyReplace g "/" "_"))
    (hmiss : alookup cp fs = none)
    (hobj : alookup g c.objects = some content)
    (hdec : decodeTable .parquet content = some fullT) :
    read_parquet_gcs path (some c) (some cs) cd true fs
      = (.ok (fullT.select cs), fsWrite fs cp (encodeTable .parquet fullT),
         [.remoteInfo g, .remoteOpen g, .mkdir cd, .remoteOpen g, .fileWrite cp])
    ∧ ∀ cs2 : List String,
        read_parquet_gcs path (some c2) (some cs2) cd true
            (fsWrite fs cp (encodeTable .parquet fullT))
          = (.ok (fullT.select cs2), fsWrite fs cp (encodeTable .parquet fullT),
             [.fileRead cp]) := by
  subst hg
  subst hcp
  constructor
  · simp [read_parquet_gcs, hp, hmiss, hobj, chooseParse_eq, parseSel, hdec, selectOpt]
  · intro cs2
    simp [read_parquet_gcs, hp, alookup_fsWrite, readLocalTable, parseSel,
      decodeTable_encodeTable, selectOpt]

/-- Witness for C2: concrete two-column object fetched with
`columns=["a"]`, then re-fetched with `columns=["b"]`. -/
theorem read_parquet_columns_cache_full_witness :
    pyStartsWith "gs://b/t.parquet" "gs://" = true
    ∧ ("b/t.parquet" : String) = pyReplace "gs://b/t.parquet" "gs://" ""
    ∧ (".cache/b_t.parquet" : String) = pathJoin ".cache" (pyReplace "b/t.parquet" "/" "_")
    ∧ alookup ".cache/b_t.parquet" ([] : FileSys) = none
    ∧ alookup "b/t.parquet"
        [("b/t.parquet", encodeTable Fmt.parquet ⟨[("a", [1]), ("b", [2])]⟩)]
        = some (encodeTable Fmt.parquet ⟨[("a", [1]), ("b", [2])]⟩)
    ∧ decodeTable .parquet (encodeTable Fmt.parquet ⟨[("a", [1]), ("b", [2])]⟩)
        = some ⟨[("a", [1]), ("b", [2])]⟩
    ∧ read_parquet_gcs "gs://b/t.parquet"
        (some ⟨[("b/t.parquet", encodeTable Fmt.parquet ⟨[("a", [1]), ("b", [2])]⟩)],
          fun _ => some 0⟩)
        (some ["a"]) ".cache" true []
      = (.ok ((⟨[("a", [1]), ("b", [2])]⟩ : Table).select ["a"]),
         fsWrite [] ".cache/b_t.parquet"
           (encodeTable .parquet ⟨[("a", [1]), ("b", [2])]⟩),
         [.remoteInfo "b/t.parquet", .remoteOpen "b/t.parquet", .mkdir ".cache",
          .remoteOpen "b/t.parquet", .fileWrite ".cache/b_t.parquet"])
    ∧ read_parquet_gcs "gs://b/t.parquet"
        (some ⟨[], fun _ => none⟩) (some ["b"]) ".cache" true
        (fsWrite [] ".cache/b_t.parquet"
          (encodeTable .parquet ⟨[("a", [1]), ("b", [2])]⟩))
      = (.ok ((⟨[("a", [1]), ("b", [2])]⟩ : Table).select ["b"]),
         fsWrite [] ".cache/b_t.parquet"
           (encodeTable .parquet ⟨[("a", [1]), ("b", [2])]⟩),
         [.fileRead ".cache/b_t.parquet"]) := by
  have h := read_parquet_columns_cache_full "gs://b/t.parquet" ".cache" "b/t.parquet"
    ".cache/b_t.parquet"
    ⟨[("b/t.parquet", encodeTable Fmt.parquet ⟨[("a", [1]), ("b", [2])]⟩)], fun _ => some 0⟩
    ⟨[], fun _ => none⟩ ["a"] [] (encodeTable Fmt.parquet ⟨[("a", [1]), ("b", [2])]⟩)
    ⟨[("a", [1]), ("b", [2])]⟩
    (by decide) (by decide) (by decide) (by decide) (by decide) (by decide)
  exact ⟨by decide, by decide, by decide, by decide, by decide, by decide, h.1, h.2 ["b"]⟩

/-- Claim C7: for every remote path (scheme prefix present), calling either
fetcher with a null client fails with the precondition error before any
cache or remote access (unchanged filesystem, empty event trace); for every
local path, either fetcher works identically with any client including
none — the trace is exactly one read of the given path itself (no cache
read, no cache write, no remote operation, unchanged filesystem) — and when
that local file exists and parses, the call succeeds with the parsed
table. -/
theorem fetch_precondition_and_local (rpath lpath cd : String) (uc : Bool)
    (fs : FileSys) (cols : Option (List String)) (g : Option GcsFs) (b : Bytes)
    (t : Table)
    (hr : pyStartsWith rpath "gs://" = true)
    (hl : pyStartsWith lpath "gs://" = false) :
    read_feather_gcs rpath none cd uc fs = (.error .preconditionFailed, fs, [])
    ∧ read_parquet_gcs rpath none cols cd uc fs = (.error .preconditionFailed, fs, [])
    ∧ read_feather_gcs lpath g cd uc fs
        = (readLocalTable .feather fs lpath none, fs, [.fileRead lpath])
    ∧ read_parquet_gcs lpath g cols cd uc fs
        = (readLocalTable .parquet fs lpath cols, fs, [.fileRead lpath])
    ∧ (alookup lpath fs = some b → decodeTable .feather b = some t →
        (read_feather_gcs lpath none cd uc fs).1 = .ok t) := by
  refine ⟨?_, ?_, ?_, ?_, ?_⟩
  · simp [read_feather_gcs, hr]
  · simp [read_parquet_gcs, hr]
  · simp [read_feather_gcs, hl]
  · simp [read_parquet_gcs, hl]
  · intro hb hd
    simp [read_feather_gcs, hl, readLocalTable, hb, parseSel, hd, selectOpt]

/-- Witness for C7 at a remote and a local path. -/
theorem fetch_precondition_and_local_witness :
    pyStartsWith "gs://b/x.feather" "gs://" = true
    ∧ pyStartsWith "local/x.feather" "gs://" = false
    ∧ read_feather_gcs "gs://b/x.feather" none ".cache" true
        [("local/x.feather", encodeTable Fmt.feather ⟨[("x", [1])]⟩)]
        = (.error .preconditionFailed,
           [("local/x.feather", encodeTable Fmt.feather ⟨[("x", [1])]⟩)], [])
    ∧ (read_feather_gcs "local/x.feather" none ".cache" true
        [("local/x.feather", encodeTable Fmt.feather ⟨[("x", [1])]⟩)]).1
        = .ok ⟨[("x", [1])]⟩ := by
  have h := fetch_precondition_and_local "gs://b/x.feather" "local/x.feather" ".cache"
    true [("local/x.feather", encodeTable Fmt.feather ⟨[("x", [1])]⟩)] none none
    (encodeTable Fmt.feather ⟨[("x", [1])]⟩) ⟨[("x", [1])]⟩ (by decide) (by decide)
  exact ⟨by decide, by decide, h.1, h.2.2.2.2 (by decide) (by decide)⟩

/-- Claim C8: the metadata size lookup never influences the outcome of a
fetch — two clients over the same objects whose `info` behaves arbitrarily
differently (in particular, one raising) produce identical results,
filesystems, and event traces, for both fetchers — and on a cache miss with
`info` raising, the object is still fetched and parsed: the result is the
parsed (column-restricted) table. -/
theorem fetch_info_failure_swallowed (objects : List (String × Bytes))
    (i1 i2 : String → Option Nat) (path cd : String) (uc : Bool)
    (cols : Option (List String)) (fs : FileSys) :
    read_feather_gcs path (some ⟨objects, i1⟩) cd uc fs
      = read_feather_gcs path (some ⟨objects, i2⟩) cd uc fs
    ∧ read_parquet_gcs path (some ⟨objects, i1⟩) cols cd uc fs
      = read_parquet_gcs path (some ⟨objects, i2⟩) cols cd uc fs
    ∧ (∀ (content : Bytes) (t : Table),
        pyStartsWith path "gs://" = true →
        alookup (pathJoin cd (pyReplace (pyReplace path "gs://" "") "/" "_")) fs
          = none →
        alookup (pyReplace path "gs://" "") objects = some content →
        decodeTable .parquet content = some t →
        (read_parquet_gcs path (some ⟨objects, fun _ => none⟩) cols cd uc fs).1
          = .ok (selectOpt cols t)) := by
  refine ⟨?_, ?_, ?_⟩
  · simp only [read_feather_gcs, chooseParse_eq]
  · simp only [read_parquet_gcs, chooseParse_eq]
  · intro content t hp hmiss hobj hdec
    cases uc <;> rcases cols with _ | cs <;>
      simp [read_parquet_gcs, hp, hmiss, hobj, chooseParse_eq, parseSel, hdec, selectOpt]

/-- Witness for C8's fetched-and-parsed conjunct with a raising `info`. -/
theorem fetch_info_failure_swallowed_witness :
    pyStartsWith "gs://b/t.parquet" "gs://" = true
    ∧ alookup
        (pathJoin ".cache"
          (pyReplace (pyReplace "gs://b/t.parquet" "gs://" "") "/" "_"))
        ([] : FileSys) = none
    ∧ alookup (pyReplace "gs://b/t.parquet" "gs://" "")
        [("b/t.parquet", encodeTable Fmt.parquet ⟨[("a", [2])]⟩)]
        = some (encodeTable Fmt.parquet ⟨[("a", [2])]⟩)
    ∧ decodeTable .parquet (encodeTable Fmt.parquet ⟨[("a", [2])]⟩)
        = some ⟨[("a", [2])]⟩
    ∧ (read_parquet_gcs "gs://b/t.parquet"
        (some ⟨[("b/t.parquet", encodeTable Fmt.parquet ⟨[("a", [2])]⟩)],
          fun _ => none⟩)
        none ".cache" true []).1
        = .ok (selectOpt none ⟨[("a", [2])]⟩) :=
  ⟨by decide, by decide, by decide, by decide,
   (fetch_info_failure_swallowed
      [("b/t.parquet", encodeTable Fmt.parquet ⟨[("a", [2])]⟩)]
      (fun _ => none) (fun _ => none) "gs://b/t.parquet" ".cache" true none []).2.2
      (encodeTable Fmt.parquet ⟨[("a", [2])]⟩) ⟨[("a", [2])]⟩
      (by decide) (by decide) (by decide) (by decide)⟩

/-- Claim C10: for every byte stream, the chunked download loop of the
progress-reporting branch (fixed 1 MiB reads until an empty read,
concatenated) accumulates exactly the full stream content, so both the
progress branch and the no-progress fallback branch of a cache-miss fetch
parse identical bytes: the parse step yields the same table whatever size
the progress decision was based on. -/
theorem download_loop_lossless (content : Bytes) (f : Fmt)
    (cols : Option (List String)) (fsz : Option Nat) :
    downloadChunked content = content
    ∧ parseSel f (downloadChunked content) cols = parseSel f content cols
    ∧ chooseParse f fsz content cols = parseSel f content cols :=
  ⟨downloadChunked_eq content,
   by rw [downloadChunked_eq],
   chooseParse_eq f fsz content cols⟩

/-! ## Batch-fetch lemmas -/

theorem foldl_collect {ν : Type} (g : String → Except Err ν) (l : List String)
    (acc : List ν) :
    l.foldl (fun ns fn => match g fn with | .ok n => ns ++ [n] | .error _ => ns) acc
      = acc ++ l.filterMap (fun fn => (g fn).toOption) := by
  induction l generalizing acc with
  | nil => simp
  | cons a l ih =>
    cases hg : g a <;>
      simp [List.foldl_cons, hg, ih, Except.toOption, List.append_assoc]

theorem length_filterMap_eq_countP {α β : Type} (g : α → Option β) (l : List α) :
    (l.filterMap g).length = l.countP (fun a => (g a).isSome) := by
  induction l with
  | nil => rfl
  | cons a l ih =>
    cases hg : g a <;> simp [List.filterMap_cons, hg, List.countP_cons, ih]

theorem countP_add_countP_neg {α : Type} (p : α → Bool) (l : List α) :
    l.countP p + l.countP (fun a => !(p a)) = l.length := by
  induction l with
  | nil => rfl
  | cons a l ih =>
    cases hp : p a <;> simp [List.countP_cons, hp] <;> omega

theorem isSome_toOption {ν : Type} (e : Except Err ν) : e.toOption.isSome = e.isOk := by
  cases e <;> rfl

/-! ## Claim theorem: batch fetch -/

/-- Claim C9: for every list of `N` names, the batch fetch walks them
sequentially under `directory`; a failing item (missing object or a parser
error) is skipped while iteration continues, so the call returns a plain
list — no exception escapes — containing exactly the successfully parsed
items in order; when exactly one item fails the result has `N - 1`
items. -/
theorem batch_swc_continue_on_error {ν : Type} (p : Bytes → Except Err ν)
    (c : GcsFs) (dir : String) (names : List String) :
    batch_read_swc_from_gcs p c dir names
      = names.filterMap (fun fn => (read_swc_from_gcs p c (dir ++ "/" ++ fn)).toOption)
    ∧ (batch_read_swc_from_gcs p c dir names).length
      = names.countP (fun fn => (read_swc_from_gcs p c (dir ++ "/" ++ fn)).isOk)
    ∧ (names.countP (fun fn => !(read_swc_from_gcs p c (dir ++ "/" ++ fn)).isOk) = 1 →
        (batch_read_swc_from_gcs p c dir names).length = names.length - 1) := by
  have h1 : batch_read_swc_from_gcs p c dir names
      = names.filterMap (fun fn => (read_swc_from_gcs p c (dir ++ "/" ++ fn)).toOption) := by
    unfold batch_read_swc_from_gcs
    rw [foldl_collect (fun fn => read_swc_from_gcs p c (dir ++ "/" ++ fn)) names []]
    rfl
  have h2 : (batch_read_swc_from_gcs p c dir names).length
      = names.countP (fun fn => (read_swc_from_gcs p c (dir ++ "/" ++ fn)).isOk) := by
    rw [h1, length_filterMap_eq_countP]
    congr 1
    funext fn
    rw [isSome_toOption]
  refine ⟨h1, h2, ?_⟩
  intro hone
  have h3 := countP_add_countP_neg
    (fun fn => (read_swc_from_gcs p c (dir ++ "/" ++ fn)).isOk) names
  rw [hone] at h3
  omega

/-- Witness for C9: three names, the middle object's content fails to
parse, so the batch returns two items. -/
theorem batch_swc_continue_on_error_witness :
    (List.countP
      (fun fn =>
        !(read_swc_from_gcs
            (fun b => if b.isEmpty then .error Err.parseFailure else .ok b)
            ⟨[("d/a", [1]), ("d/b", []), ("d/c", [2])], fun _ => none⟩
            ("d" ++ "/" ++ fn)).isOk)
      ["a", "b", "c"] = 1)
    ∧ (batch_read_swc_from_gcs
        (fun b => if b.isEmpty then .error Err.parseFailure else .ok b)
        ⟨[("d/a", [1]), ("d/b", []), ("d/c", [2])], fun _ => none⟩
        "d" ["a", "b", "c"]).length = (["a", "b", "c"] : List String).length - 1 :=
  ⟨by decide,
   (batch_swc_continue_on_error
      (fun b => if b.isEmpty then .error Err.parseFailure else .ok b)
      ⟨[("d/a", [1]), ("d/b", []), ("d/c", [2])], fun _ => none⟩
      "d" ["a", "b", "c"]).2.2 (by decide)⟩
